import Mathlib

/-!
Shallow embedding of the `upvibe` update-orchestration core
(`src/installer.ts`, `src/packageManager.ts`, `src/config.ts`).

Strings are modelled as `List Char` (`Str`).  JavaScript numbers occurring
in this code are integers or `NaN`, modelled by `JsNum`; a value that may
additionally be `undefined` (from array destructuring past the end) is
`Option JsNum`.  `Number(s)` is modelled by `jsNumber` for the strings this
program feeds it: components of dotted version strings (digit runs,
optionally signed, possibly empty, possibly containing non-numeric
characters); exotic numeric literal forms (hex, exponent) are outside the
domain and map to `NaN`.

External effects (spawned processes, the npm registry, the filesystem) are
passed in explicitly as oracles (`Env`, `ReadOutcome`), and the commands a
run executes through `spawnAsync` are returned as a trace.
-/

abbrev Str := List Char

def str (s : String) : Str := s.data

/-- Whitespace for the purposes of `String.prototype.trim` (ASCII subset;
the strings this program trims contain no exotic unicode whitespace). -/
def isWs (c : Char) : Bool := c = ' ' || c = '\t' || c = '\n' || c = '\r'

/-- Model of JavaScript `s.trim()`: drop leading and trailing whitespace. -/
def trimChars (s : Str) : Str :=
  ((s.dropWhile isWs).reverse.dropWhile isWs).reverse

/-- A JavaScript number as produced by `Number(...)` on version components:
an integer or `NaN`. -/
inductive JsNum where
  | nan : JsNum
  | int : Int → JsNum
deriving DecidableEq, Repr

/-- A destructured array slot: `none` models `undefined` (index past the
end of the array), `some` a number. -/
abbrev JsVal := Option JsNum

def digitsToNat (l : List Char) : Nat :=
  l.foldl (fun a c => 10 * a + (c.toNat - '0'.toNat)) 0

/-- Model of `Number(s)` on the strings this program produces by splitting
version strings on `'.'`: whitespace is trimmed, the empty string is `0`,
an optionally signed digit run is that integer, anything else is `NaN`. -/
def jsNumber (s : Str) : JsNum :=
  let t := trimChars s
  if t = [] then .int 0
  else if t.all Char.isDigit then .int (digitsToNat t)
  else
    match t with
    | '-' :: rest =>
        if rest ≠ [] ∧ rest.all Char.isDigit then .int (-(digitsToNat rest)) else .nan
    | _ => .nan

/-- Model of JavaScript `s.split(sep)` for a single-character separator. -/
def splitOnChar (sep : Char) : Str → List Str
  | [] => [[]]
  | c :: cs =>
      let rest := splitOnChar sep cs
      if c = sep then [] :: rest
      else (c :: rest.headD []) :: rest.tail

/-- JavaScript strict equality `===` on possibly-undefined numbers:
`undefined === undefined` is true, `NaN` is equal to nothing. -/
def jsEq : JsVal → JsVal → Bool
  | Option.none, Option.none => true
  | some (.int a), some (.int b) => a == b
  | _, _ => false

/-- JavaScript `>` on possibly-undefined numbers: any comparison involving
`undefined` (coerced to `NaN`) or `NaN` is false. -/
def jsGt : JsVal → JsVal → Bool
  | some (.int a), some (.int b) => decide (a > b)
  | _, _ => false

/-- `const [a, b, c] = arr` on an array of numbers: the first three slots,
`undefined` past the end. -/
def destructure3 (l : List JsNum) : JsVal × JsVal × JsVal :=
  (l[0]?, l[1]?, l[2]?)

/-- `v.split('.').map(Number)` destructured into (major, minor, patch), as
done in `getVersionByStrategy` (`installer.ts`, no suffix stripping, no
padding). -/
def tripleOf (v : Str) : JsVal × JsVal × JsVal :=
  destructure3 ((splitOnChar '.' v).map jsNumber)

/-- The `cleanVersion` arrow function inside `determineUpdateType`:
`v.split('-')[0].split('+')[0]`. -/
def cleanVersion (v : Str) : Str :=
  (splitOnChar '+' ((splitOnChar '-' v).headD [])).headD []

/-- The two `while (xs.length < 3) xs.push(0)` loops in
`determineUpdateType`: pad the component array to length 3 with `0`. -/
def padTo3 (l : List JsNum) : List JsNum :=
  l ++ List.replicate (3 - l.length) (.int 0)

/-- The component array `determineUpdateType` builds for one version
string: strip suffix, split on dots, convert, pad to three entries. -/
def detTriple (s : Str) : List JsNum :=
  padTo3 ((splitOnChar '.' (cleanVersion s)).map jsNumber)

/-- The destructured (major, minor, patch) of `detTriple`; after padding
all three slots are defined. -/
def detTriple3 (s : Str) : JsVal × JsVal × JsVal :=
  destructure3 (detTriple s)

inductive UpdateType where
  | major : UpdateType
  | minor : UpdateType
  | patch : UpdateType
  | none : UpdateType
deriving DecidableEq, Repr

/-- `determineUpdateType(currentVersion, targetVersion)` from
`installer.ts`: `null`, the empty string (falsy) and the `'latest'`
sentinel short-circuit to `none`; otherwise both versions are cleaned,
split, converted and padded, and the padded components compared. -/
def determineUpdateType (currentVersion : Option Str) (targetVersion : Str) :
    UpdateType :=
  match currentVersion with
  | Option.none => .none
  | some c =>
    if c = [] ∨ targetVersion = str "latest" then .none
    else
      let (cM, cN, cP) := detTriple3 c
      let (tM, tN, tP) := detTriple3 targetVersion
      if jsGt tM cM then .major
      else if jsEq tM cM && jsGt tN cN then .minor
      else if jsEq tM cM && jsEq tN cN && jsGt tP cP then .patch
      else .none

/-- The `'npm' | 'yarn' | 'pnpm'` union from `types.ts`. -/
inductive PackageManager where
  | npm : PackageManager
  | yarn : PackageManager
  | pnpm : PackageManager
deriving DecidableEq, Repr

/-- `getInstallCommand` from `packageManager.ts`: template-string
concatenation followed by `.trim()`.  The `default: throw` branch of the
source switch is unreachable here because the manager is one of the three
union members. -/
def getInstallCommand (pm : PackageManager) (packageName : Str)
    (version : Str) (global : Bool) : Str :=
  let globalFlag : Str := if global then str "-g" else []
  match pm with
  | .pnpm => trimChars (str "pnpm add " ++ globalFlag ++ str " " ++ packageName ++ '@' :: version)
  | .yarn => trimChars (str "yarn global add " ++ packageName ++ '@' :: version)
  | .npm => trimChars (str "npm install " ++ globalFlag ++ str " " ++ packageName ++ '@' :: version)

/-- The `PackageConfig` interface from `types.ts`; optional fields are
`Option`, so that the source's falsiness checks can be modelled. -/
structure PackageConfig where
  name : Str
  global : Option Bool := Option.none
  strategy : Option Str := Option.none
  version : Option Str := Option.none
  postinstall : Option (List Str) := Option.none
deriving DecidableEq, Repr

/-- The `'minor' | 'patch'` parameter type of `getVersionByStrategy`. -/
inductive NarrowStrategy where
  | minor : NarrowStrategy
  | patch : NarrowStrategy
deriving DecidableEq, Repr

/-- Outcome of one spawned process (`spawnAsync`'s view of the child):
either it exited with a code and an accumulated raw stderr stream, or the
`'error'` event fired with a message. -/
inductive RunOutcome where
  | exited : Int → Str → RunOutcome
  | spawnError : Str → RunOutcome
deriving DecidableEq, Repr

/-- A thrown JavaScript `Error` as this code builds and inspects them: a
`message` and an optional `stderr` property. -/
structure JsError where
  message : Str
  stderr : Option Str := Option.none
deriving DecidableEq, Repr

/-- The external world as the orchestrator sees it, one oracle per kind of
external query:
* `installedGlobal name` / `installedLocal name` — the
  `data.dependencies?.[name]?.version` extracted from `npm list [-g]
  --json`; `none` covers a failing command, missing package or missing
  version field (all of which the source treats alike),
* `viewLatest name` — raw stdout of `npm view name version`, `none` when
  that command fails,
* `viewVersions name` — the JSON array from `npm view name versions
  --json`, `none` when the command or the parse fails,
* `run command` — the child-process outcome `spawnAsync` observes for
  `command`. -/
structure Env where
  installedGlobal : Str → Option Str
  installedLocal : Str → Option Str
  viewLatest : Str → Option Str
  viewVersions : Str → Option (List Str)
  run : Str → RunOutcome

/-- The predicate of the `availableVersions.filter(...)` in
`getVersionByStrategy`, with the current version's destructured
components fixed. -/
def eligiblePred (strat : NarrowStrategy) (cur : JsVal × JsVal × JsVal)
    (v : Str) : Bool :=
  let (vMajor, vMinor, vPatch) := tripleOf v
  let (major, minor, patch) := cur
  match strat with
  | .minor => jsEq vMajor major && (jsGt vMinor minor || (jsEq vMinor minor && jsGt vPatch patch))
  | .patch => jsEq vMajor major && jsEq vMinor minor && jsGt vPatch patch

/-- `getVersionByStrategy` from `installer.ts`.  The enclosing `try/catch`
means every registry failure (modelled as an oracle returning `none`)
falls back to `'latest'`; an absent or falsy current version also yields
`'latest'`; otherwise the available versions are filtered and the result
is `eligibleVersions[eligibleVersions.length - 1]` — the last eligible
element in input order — or the current version when none is eligible.
Note the source always queries `npm list -g` here, regardless of the
package's `global` flag. -/
def getVersionByStrategy (env : Env) (packageName : Str)
    (strat : NarrowStrategy) : Str :=
  match env.installedGlobal packageName with
  | Option.none => str "latest"
  | some currentVersion =>
    if currentVersion = [] then str "latest"
    else
      match env.viewVersions packageName with
      | Option.none => str "latest"
      | some availableVersions =>
        let cur := tripleOf currentVersion
        let eligibleVersions := availableVersions.filter (eligiblePred strat cur)
        match eligibleVersions.getLast? with
        | some v => v
        | Option.none => currentVersion

/-- `pkg.strategy || 'latest'`: an absent or empty strategy string
defaults to `'latest'`. -/
def strategyOf (pkg : PackageConfig) : Str :=
  match pkg.strategy with
  | Option.none => str "latest"
  | some s => if s = [] then str "latest" else s

/-- `getTargetVersion` from `installer.ts`: switch on the strategy string;
`pinned` without a (truthy) version throws. -/
def getTargetVersion (env : Env) (pkg : PackageConfig) : Except JsError Str :=
  let strategy := strategyOf pkg
  if strategy = str "latest" then .ok (str "latest")
  else if strategy = str "pinned" then
    match pkg.version with
    | Option.none => .error ⟨str "Version is required for pinned strategy", Option.none⟩
    | some v =>
        if v = [] then .error ⟨str "Version is required for pinned strategy", Option.none⟩
        else .ok v
  else if strategy = str "minor" then .ok (getVersionByStrategy env pkg.name .minor)
  else if strategy = str "patch" then .ok (getVersionByStrategy env pkg.name .patch)
  else .ok (str "latest")

/-- `getCurrentVersion` from `installer.ts`: query the matching oracle;
`version || null` maps an empty version string to `null`. -/
def getCurrentVersion (env : Env) (packageName : Str) (isGlobal : Bool) :
    Option Str :=
  match (if isGlobal then env.installedGlobal packageName
         else env.installedLocal packageName) with
  | some v => if v = [] then Option.none else some v
  | Option.none => Option.none

/-- `spawnAsync` from `installer.ts`: exit code 0 resolves; a non-zero
code rejects with an `Error` whose message names the code and whose
`stderr` property is the trimmed captured stream; a spawn `'error'` event
rejects with that error (no `stderr` property). -/
def spawnResult (o : RunOutcome) : Except JsError Unit :=
  match o with
  | .exited code stderrRaw =>
      if code = 0 then .ok ()
      else .error ⟨str "Command failed with exit code " ++ str (toString code),
                   some (trimChars stderrRaw)⟩
  | .spawnError message => .error ⟨message, Option.none⟩

/-- The `for (const cmd of pkg.postinstall) await spawnAsync(cmd)` loop:
run hooks in order, stopping at the first failure; also returns the list
of commands actually spawned. -/
def runHooks (env : Env) : List Str → Except JsError Unit × List Str
  | [] => (.ok (), [])
  | cmd :: rest =>
      match spawnResult (env.run cmd) with
      | .ok _ =>
          let (r, tr) := runHooks env rest
          (r, cmd :: tr)
      | .error e => (.error e, [cmd])

/-- `errorMessage.split('\n')[0]`. -/
def firstLine (s : Str) : Str := (splitOnChar '\n' s).headD []

/-- The `catch` block's message extraction in `updatePackage`: prefer the
error's `stderr` when it is truthy and trims to something non-empty, else
the error's `message`.  (Every throw in the modelled pipeline is an
`Error`, so the `String(error)` branch is unreachable.) -/
def errorMessageOf (e : JsError) : Str :=
  match e.stderr with
  | some s => if s ≠ [] ∧ trimChars s ≠ [] then trimChars s else e.message
  | Option.none => e.message

/-- The `UpdateResult` interface from `installer.ts` (the variant with
version/updateType reporting). -/
structure UpdateResult where
  success : Bool
  package : Str
  error : Option Str := Option.none
  version : Option Str := Option.none
  currentVersion : Option Str := Option.none
  updateType : Option UpdateType := Option.none
deriving DecidableEq, Repr

/-- The failure record built in `updatePackage`'s `catch` block. -/
def failResult (pkg : PackageConfig) (e : JsError) : UpdateResult :=
  { success := false, package := pkg.name,
    error := some (firstLine (errorMessageOf e)) }

/-- `updatePackage` from `installer.ts` (the orchestrator's per-package
pipeline), together with the trace of commands it passes to `spawnAsync`
(the install command and executed hooks, in order).  Spinner and console
rendering are omitted; they do not affect the returned record. -/
def updatePackage (pm : PackageManager) (env : Env) (pkg : PackageConfig) :
    UpdateResult × List Str :=
  let isGlobal := pkg.global != some false
  let currentVersion := getCurrentVersion env pkg.name isGlobal
  match getTargetVersion env pkg with
  | .error e => (failResult pkg e, [])
  | .ok targetVersion =>
    let actualTargetVersion :=
      if targetVersion = str "latest" then
        match env.viewLatest pkg.name with
        | some stdout => trimChars stdout
        | Option.none => targetVersion
      else targetVersion
    let updateType := determineUpdateType currentVersion actualTargetVersion
    let command := getInstallCommand pm pkg.name targetVersion isGlobal
    match spawnResult (env.run command) with
    | .error e => (failResult pkg e, [command])
    | .ok _ =>
      let hooks :=
        match pkg.postinstall with
        | some l => if l.length > 0 then l else []
        | Option.none => []
      match runHooks env hooks with
      | (.error e, tr) => (failResult pkg e, command :: tr)
      | (.ok _, tr) =>
        ({ success := true, package := pkg.name,
           version := some actualTargetVersion,
           currentVersion := currentVersion,
           updateType := some updateType }, command :: tr)

/-- `updatePackages` from `installer.ts`: the sequential `for` loop,
pushing each package's result. -/
def updatePackages (pm : PackageManager) (env : Env) :
    List PackageConfig → List UpdateResult
  | [] => []
  | pkg :: rest => (updatePackage pm env pkg).1 :: updatePackages pm env rest

/-- A package record as persisted in `.upvibe.json`, before defaulting
(`PackageConfig` with its optional fields possibly absent). -/
structure RawPackage where
  name : Str
  global : Option Bool := Option.none
  strategy : Option Str := Option.none
  version : Option Str := Option.none
  postinstall : Option (List Str) := Option.none
deriving DecidableEq, Repr

/-- The `UpdoConfig` interface from `types.ts`. -/
structure UpdoConfig where
  packages : List RawPackage
  packageManager : Option Str := Option.none
deriving DecidableEq, Repr

/-- The defaulting map applied by `readConfigFile` in `config.ts`:
`global: pkg.global !== false`, `strategy: pkg.strategy || 'latest'`. -/
def applyDefaults (pkg : RawPackage) : RawPackage :=
  { pkg with
    global := some (pkg.global ≠ some false),
    strategy := some (match pkg.strategy with
      | Option.none => str "latest"
      | some s => if s = [] then str "latest" else s) }

/-- What reading and JSON-parsing the home config file can yield:
the file is missing (`ENOENT`), reading or parsing fails some other way,
or a parsed object (whose `packages` field may fail the array check). -/
inductive ReadOutcome where
  | enoent : ReadOutcome
  | otherError : ReadOutcome
  | invalidPackages : ReadOutcome
  | found : UpdoConfig → ReadOutcome

/-- `readConfigFile` from `config.ts`: `ENOENT` returns `null`, a missing
or non-array `packages` field and any other read/parse failure throw, and
a well-formed config comes back with per-package defaults applied. -/
def readConfigFile : ReadOutcome → Except Unit (Option UpdoConfig)
  | .enoent => .ok Option.none
  | .otherError => .error ()
  | .invalidPackages => .error ()
  | .found cfg => .ok (some { cfg with packages := cfg.packages.map applyDefaults })

/-- The entry `loadConfig` unshifts when `upvibe` is missing. -/
def upvibeEntry : RawPackage :=
  { name := str "upvibe", global := some true, strategy := some (str "latest") }

/-- `loadConfig` from `config.ts` (home-directory variant with the upvibe
auto-add).  Returns the config handed to the caller and, second, the
config content whose write-back to the config file is issued (the source
ignores write errors, so the issued write does not affect the returned
value). -/
def loadConfig (readHome : ReadOutcome) : Option UpdoConfig × Option UpdoConfig :=
  match readConfigFile readHome with
  | .error _ => (Option.none, Option.none)
  | .ok Option.none => (Option.none, Option.none)
  | .ok (some config) =>
    if config.packages.any (fun pkg => pkg.name = str "upvibe") then
      (some config, Option.none)
    else
      let config2 := { config with packages := upvibeEntry :: config.packages }
      (some config2, some config2)

/-! ### Concrete environments used by witnesses and counterexamples -/

/-- A world where `demo` is installed at `1.0.0`, the registry is
unreachable, and every spawned command succeeds. -/
def envUpToDate : Env :=
  { installedGlobal := fun n => if n = str "demo" then some (str "1.0.0") else Option.none,
    installedLocal := fun _ => Option.none,
    viewLatest := fun _ => Option.none,
    viewVersions := fun _ => Option.none,
    run := fun _ => .exited 0 [] }

/-- The `demo` package pinned at exactly its installed version. -/
def pkgPinnedCurrent : PackageConfig :=
  { name := str "demo", strategy := some (str "pinned"), version := some (str "1.0.0") }

/-- A registry whose version list is not sorted ascending: `mytool` is
installed at `1.2.3` and the registry lists `1.3.5` before `1.2.4`. -/
def envUnsorted : Env :=
  { installedGlobal := fun n => if n = str "mytool" then some (str "1.2.3") else Option.none,
    installedLocal := fun _ => Option.none,
    viewLatest := fun _ => Option.none,
    viewVersions := fun n =>
      if n = str "mytool" then some [str "1.3.5", str "1.2.4"] else Option.none,
    run := fun _ => .exited 0 [] }

/-- A world where installing `demo` fails with exit code 1 and an empty
stderr stream. -/
def envInstallFails : Env :=
  { envUpToDate with run := fun _ => .exited 1 [] }

/-- The `demo` package with a post-install hook, pinned at `1.0.0`. -/
def pkgWithHook : PackageConfig :=
  { pkgPinnedCurrent with postinstall := some [str "echo done"] }

/-- The fully-numeric (major, minor, patch) reading of a version string
through the same split-and-convert pipeline as the strategy filter, when
all three destructured components are integers. -/
def intTriple (v : Str) : Option (Int × Int × Int) :=
  match tripleOf v with
  | (some (.int a), some (.int b), some (.int c)) => some (a, b, c)
  | _ => Option.none

/-- Lexicographic order on (major, minor, patch) triples. -/
def lexLE (a b : Int × Int × Int) : Bool :=
  decide (a.1 < b.1) ||
    (a.1 == b.1 && (decide (a.2.1 < b.2.1) ||
      (a.2.1 == b.2.1 && decide (a.2.2 ≤ b.2.2))))

/-- `lexLE` lifted to possibly-unparseable versions; an unparseable side
compares false. -/
def lexLEo : Option (Int × Int × Int) → Option (Int × Int × Int) → Bool
  | some a, some b => lexLE a b
  | _, _ => false

/-- `mytool` installed at `1.2.3` against a registry list sorted
ascending (the spec's minor-strategy scenario). -/
def envSorted : Env :=
  { installedGlobal := fun n => if n = str "mytool" then some (str "1.2.3") else Option.none,
    installedLocal := fun _ => Option.none,
    viewLatest := fun _ => Option.none,
    viewVersions := fun n =>
      if n = str "mytool" then
        some [str "1.2.4", str "1.3.0", str "1.3.5", str "2.0.0"]
      else Option.none,
    run := fun _ => .exited 0 [] }

example : getVersionByStrategy envUnsorted (str "mytool") .minor = str "1.2.4" := by decide
example : getVersionByStrategy envUnsorted (str "mytool") .patch = str "1.2.4" := by decide
example :
    (updatePackage .npm envUpToDate pkgPinnedCurrent).1 =
      { success := true, package := str "demo", version := some (str "1.0.0"),
        currentVersion := some (str "1.0.0"), updateType := some .none } := by decide
example :
    (updatePackage .npm envUpToDate pkgPinnedCurrent).2 =
      [str "npm install -g demo@1.0.0"] := by decide
example :
    (updatePackage .npm envInstallFails pkgWithHook).1 =
      { success := false, package := str "demo",
        error := some (str "Command failed with exit code 1") } := by decide
example :
    (updatePackage .npm envInstallFails pkgWithHook).2 =
      [str "npm install -g demo@1.0.0"] := by decide
example : getInstallCommand .yarn (str "foo") (str "1.0.0") false = str "yarn global add foo@1.0.0" := by decide
example : getInstallCommand .npm (str "foo") (str "latest") false = str "npm install  foo@latest" := by decide
example :
    loadConfig (.found { packages := [{ name := str "typescript" }] }) =
      (some { packages := [upvibeEntry, applyDefaults { name := str "typescript" }] },
       some { packages := [upvibeEntry, applyDefaults { name := str "typescript" }] }) := by
  decide

/-! ### Helper lemmas -/

theorem jsGt_self (x : JsVal) : jsGt x x = false := by
  cases x with
  | none => rfl
  | some n => cases n with
    | nan => rfl
    | int a => simp [jsGt]

theorem jsEq_eq {x y : JsVal} (h : jsEq x y = true) : x = y := by
  cases x with
  | none => cases y with
    | none => rfl
    | some n => cases n <;> simp [jsEq] at h
  | some m => cases y with
    | none => cases m <;> simp [jsEq] at h
    | some n => cases m <;> cases n <;> simp_all [jsEq]

/-- Comparing any version string with itself classifies as `none`: the
first `if` of each branch compares a component with itself. -/
theorem determineUpdateType_self (v : Str) :
    determineUpdateType (some v) v = .none := by
  rcases hd : detTriple3 v with ⟨a, b, c⟩
  by_cases h : v = [] ∨ v = str "latest" <;>
    simp [determineUpdateType, hd, h, jsGt_self]

/-- `updatePackages` is the pointwise map of `updatePackage` over the
package list. -/
theorem updatePackages_eq_map (pm : PackageManager) (env : Env)
    (pkgs : List PackageConfig) :
    updatePackages pm env pkgs = pkgs.map (fun p => (updatePackage pm env p).1) := by
  induction pkgs with
  | nil => rfl
  | cons p ps ih => simp [updatePackages, ih]

theorem jsGt_nan_left (y : JsVal) : jsGt (some .nan) y = false := by
  cases y with
  | none => rfl
  | some n => cases n <;> rfl

theorem jsEq_nan_left (y : JsVal) : jsEq (some .nan) y = false := by
  cases y with
  | none => rfl
  | some n => cases n <;> rfl

/-- In a pairwise-related list, every element is the last one or related
to it. -/
theorem pairwise_getLast? {α : Type} {R : α → α → Prop} :
    ∀ (l : List α), l.Pairwise R → ∀ v, l.getLast? = some v →
      ∀ x ∈ l, x = v ∨ R x v
  | [], _, v, h, x, hx => absurd hx (List.not_mem_nil x)
  | [a], _, v, h, x, hx => by
      simp only [List.getLast?_singleton, Option.some.injEq] at h
      simp only [List.mem_singleton] at hx
      exact Or.inl (hx.trans h)
  | a :: b :: t, hp, v, h, x, hx => by
      rw [List.getLast?_cons_cons] at h
      rcases List.mem_cons.mp hx with rfl | hx'
      · exact Or.inr ((List.pairwise_cons.mp hp).1 v (List.mem_of_mem_getLast? h))
      · exact pairwise_getLast? (b :: t) (List.pairwise_cons.mp hp).2 v h x hx'

/-- The head of a single-character split is the longest separator-free
prefix. -/
theorem splitOnChar_headD (sep : Char) :
    ∀ l : Str, (splitOnChar sep l).headD [] = l.takeWhile (fun c => !(c == sep))
  | [] => rfl
  | c :: cs => by
      have ih := splitOnChar_headD sep cs
      by_cases h : c = sep
      · have hs : splitOnChar sep (c :: cs) = [] :: splitOnChar sep cs := by
          simp [splitOnChar, h]
        rw [hs, List.takeWhile_cons]
        simp [h]
      · have hs : splitOnChar sep (c :: cs) =
            (c :: (splitOnChar sep cs).headD []) :: (splitOnChar sep cs).tail := by
          simp [splitOnChar, h]
        rw [hs, List.takeWhile_cons]
        simp only [List.headD_cons]
        rw [ih]
        simp [h]

theorem takeWhile_append_all {p : Char → Bool} (m : Str) :
    ∀ l : Str, (∀ c ∈ l, p c = true) →
      (l ++ m).takeWhile p = l ++ m.takeWhile p
  | [], _ => by simp
  | c :: cs, h => by
      have hc : p c = true := h c (List.mem_cons_self c cs)
      have ih := takeWhile_append_all m cs (fun x hx => h x (List.mem_cons_of_mem c hx))
      simp [List.takeWhile_cons, hc, ih]

theorem takeWhile_all {p : Char → Bool} (l : Str) (h : ∀ c ∈ l, p c = true) :
    l.takeWhile p = l := by
  have := takeWhile_append_all [] l h
  simpa using this

/-- `cleanVersion` in terms of `takeWhile`: keep up to the first `'-'`,
then up to the first `'+'`. -/
theorem cleanVersion_eq_takeWhile (v : Str) :
    cleanVersion v =
      (v.takeWhile (fun c => !(c == '-'))).takeWhile (fun c => !(c == '+')) := by
  unfold cleanVersion
  rw [splitOnChar_headD, splitOnChar_headD]

/-- A character of a digits-and-dots version string differs from any
non-digit, non-dot marker character. -/
theorem no_mark_of_digits (s : Str) (h : ∀ c ∈ s, c.isDigit ∨ c = '.')
    (m : Char) (hm : m.isDigit = false) (hm2 : m ≠ '.') :
    ∀ c ∈ s, (!(c == m)) = true := by
  intro c hc
  rcases h c hc with h1 | h1
  · have hne : c ≠ m := by
      intro hcontra
      subst hcontra
      simp [h1] at hm
    simp [hne]
  · subst h1
    have hne : '.' ≠ m := fun hcontra => hm2 hcontra.symm
    simp [hne]

/-- A version string containing only digits and dots is untouched by the
suffix stripping. -/
theorem cleanVersion_of_digits (s : Str) (h : ∀ c ∈ s, c.isDigit ∨ c = '.') :
    cleanVersion s = s := by
  have hd := no_mark_of_digits s h '-' (by decide) (by decide)
  have hp := no_mark_of_digits s h '+' (by decide) (by decide)
  rw [cleanVersion_eq_takeWhile, takeWhile_all _ hd, takeWhile_all _ hp]

/-! ### Claim theorems -/

/-- C2: for every list of N package configurations, `updatePackages`
produces exactly N outcomes, the i-th outcome being exactly what
`updatePackage` yields for the i-th package alone (so one package's
failure never prevents or alters the outcomes of the packages after it),
and the outcomes of a concatenated batch are the concatenated outcomes of
its parts. -/
theorem updatePackages_outcomes (pm : PackageManager) (env : Env)
    (pkgs : List PackageConfig) :
    (updatePackages pm env pkgs).length = pkgs.length ∧
    (∀ i : Nat, (updatePackages pm env pkgs)[i]? =
      (pkgs[i]?).map (fun p => (updatePackage pm env p).1)) ∧
    (∀ l₁ l₂ : List PackageConfig, updatePackages pm env (l₁ ++ l₂) =
      updatePackages pm env l₁ ++ updatePackages pm env l₂) := by
  refine ⟨?_, ?_, ?_⟩
  · simp [updatePackages_eq_map]
  · intro i
    simp [updatePackages_eq_map]
  · intro l₁ l₂
    simp [updatePackages_eq_map]

/-- C5: `determineUpdateType` returns `none` for an absent current
version, and for parseable current/target classifies exactly by the
sign-free comparison chain: `major` when the target major exceeds,
`minor` when majors agree and the target minor exceeds, `patch` when
major and minor agree and the target patch exceeds, and `none` otherwise
— in particular every downgrade yields `none`. -/
theorem determineUpdateType_classifies (t : Str) (tm tn tp : Int)
    (ht : t ≠ str "latest")
    (hpt : detTriple3 t = (some (.int tm), some (.int tn), some (.int tp))) :
    determineUpdateType Option.none t = .none ∧
    ∀ s : Str, s ≠ [] →
      ∀ cm cn cp : Int,
        detTriple3 s = (some (.int cm), some (.int cn), some (.int cp)) →
        determineUpdateType (some s) t =
          (if tm > cm then .major
           else if tm = cm ∧ tn > cn then .minor
           else if tm = cm ∧ tn = cn ∧ tp > cp then .patch
           else .none) := by
  constructor
  · rfl
  · intro s hs cm cn cp hps
    have hcond : ¬(s = [] ∨ t = str "latest") := by
      rintro (h | h)
      · exact hs h
      · exact ht h
    simp only [determineUpdateType, hps, hpt, hcond, if_false, jsGt, jsEq,
      Bool.and_eq_true, decide_eq_true_eq, beq_iff_eq]
    split_ifs <;> first | rfl | omega

/-- Witness for C5: current `2.0.0`, target `1.9.0` — a downgrade — is
classified `none`. -/
theorem determineUpdateType_classifies_witness :
    determineUpdateType (some (str "2.0.0")) (str "1.9.0") = .none := by
  have h := (determineUpdateType_classifies (str "1.9.0") 1 9 0 (by decide)
      (by decide)).2 (str "2.0.0") (by decide) 2 0 0 (by decide)
  rw [h]
  decide

/-- C8 counterexample: a non-numeric retained component (`"x"` in the
target's major slot) does not make parsing fail — there is no
`InvalidVersionFormat` error channel in the code — the component becomes
`NaN` and `determineUpdateType` still produces a classification. -/
theorem determineUpdateType_nonnumeric_classifies :
    jsNumber (str "x") = .nan ∧
    determineUpdateType (some (str "1.2.3")) (str "x.9.9") = .none := by
  decide

/-- C8 amended: version parsing never fails; a non-numeric retained
component converts to `NaN`, every comparison against it is false, and in
particular a target with a non-numeric major component classifies as
`none` for every current version. -/
theorem determineUpdateType_nan_major (c : Option Str) (t : Str)
    (ht : t ≠ str "latest") (h : (detTriple3 t).1 = some JsNum.nan) :
    determineUpdateType c t = .none := by
  cases c with
  | none => rfl
  | some s =>
    rcases hdt : detTriple3 t with ⟨a, b, c'⟩
    rcases hds : detTriple3 s with ⟨x, y, z⟩
    rw [hdt] at h
    have ha : a = some JsNum.nan := h
    subst ha
    by_cases hs : s = []
    · simp [determineUpdateType, hs]
    · have hcond : ¬(s = [] ∨ t = str "latest") := by
        rintro (h1 | h1)
        · exact hs h1
        · exact ht h1
      simp [determineUpdateType, hcond, hds, hdt, jsGt_nan_left, jsEq_nan_left]

/-- Witness for the C8 amended theorem at a concrete non-numeric target. -/
theorem determineUpdateType_nan_major_witness :
    determineUpdateType (some (str "2.0.0")) (str "oops.1.0") = .none :=
  determineUpdateType_nan_major (some (str "2.0.0")) (str "oops.1.0")
    (by decide) (by decide)

/-- C9: for a dotted numeric version string, appending a `-` or `+`
suffix (of arbitrary content) does not change the parsed
(major, minor, patch) triple. -/
theorem parse_suffix_invariant (s t : Str)
    (h : ∀ c ∈ s, c.isDigit ∨ c = '.') :
    detTriple3 (s ++ '-' :: t) = detTriple3 s ∧
    detTriple3 (s ++ '+' :: t) = detTriple3 s := by
  have hd := no_mark_of_digits s h '-' (by decide) (by decide)
  have hp := no_mark_of_digits s h '+' (by decide) (by decide)
  have hclean : cleanVersion s = s := cleanVersion_of_digits s h
  have h1 : cleanVersion (s ++ '-' :: t) = s := by
    rw [cleanVersion_eq_takeWhile, takeWhile_append_all _ s hd,
      List.takeWhile_cons, if_neg (by decide), List.append_nil,
      takeWhile_all _ hp]
  have h2 : cleanVersion (s ++ '+' :: t) = s := by
    rw [cleanVersion_eq_takeWhile, takeWhile_append_all _ s hd,
      List.takeWhile_cons, if_pos (by decide),
      takeWhile_append_all _ s hp, List.takeWhile_cons,
      if_neg (by decide), List.append_nil]
  constructor
  · unfold detTriple3 detTriple
    rw [h1, hclean]
  · unfold detTriple3 detTriple
    rw [h2, hclean]

/-- Witness for C9: `1.2.3-beta.1` parses to the same triple as
`1.2.3`. -/
theorem parse_suffix_invariant_witness :
    detTriple3 (str "1.2.3-beta.1") = detTriple3 (str "1.2.3") := by
  have h := (parse_suffix_invariant (str "1.2.3") (str "beta.1") (by decide)).1
  have he : str "1.2.3-beta.1" = str "1.2.3" ++ '-' :: str "beta.1" := by decide
  rw [he]
  exact h

theorem lexLE_refl (a : Int × Int × Int) : lexLE a a = true := by
  simp [lexLE]

/-- C3 counterexample: with the registry list in the order
`["1.3.5", "1.2.4"]` and `1.2.3` installed, the minor strategy returns
`1.2.4` — the last eligible element — although `1.3.5` also passes the
filter and is strictly greater in the (major, minor, patch) order, so the
resolver does not return the maximum for every ordering of the input
list. -/
theorem getVersionByStrategy_not_max_unsorted :
    getVersionByStrategy envUnsorted (str "mytool") .minor = str "1.2.4" ∧
    str "1.3.5" ∈ ([str "1.3.5", str "1.2.4"].filter
      (eligiblePred .minor (tripleOf (str "1.2.3")))) ∧
    intTriple (str "1.2.4") = some (1, 2, 4) ∧
    intTriple (str "1.3.5") = some (1, 3, 5) ∧
    lexLE (1, 2, 4) (1, 3, 5) = true ∧
    ((1, 2, 4) : Int × Int × Int) ≠ (1, 3, 5) := by
  decide

/-- C3 amended: with a current version installed and the registry list
available, the resolver returns the current version unchanged when no
version passes the strategy filter, and otherwise returns the **last**
version of the list (in input order) passing the filter — which is the
maximum by the (major, minor, patch) ordering whenever the input list is
sorted ascending by that ordering. -/
theorem getVersionByStrategy_last_eligible (env : Env) (n cur : Str)
    (avail : List Str) (strat : NarrowStrategy)
    (hcur : env.installedGlobal n = some cur) (hne : cur ≠ [])
    (hreg : env.viewVersions n = some avail)
    (hall : ∀ x ∈ avail, (intTriple x).isSome = true)
    (hsort : avail.Pairwise (fun x y => lexLEo (intTriple x) (intTriple y) = true)) :
    (avail.filter (eligiblePred strat (tripleOf cur)) = [] →
      getVersionByStrategy env n strat = cur) ∧
    (∀ w, (avail.filter (eligiblePred strat (tripleOf cur))).getLast? = some w →
      getVersionByStrategy env n strat = w ∧
      w ∈ avail.filter (eligiblePred strat (tripleOf cur)) ∧
      ∀ x ∈ avail.filter (eligiblePred strat (tripleOf cur)),
        lexLEo (intTriple x) (intTriple w) = true) := by
  constructor
  · intro hfe
    simp only [getVersionByStrategy, hcur, hreg, if_neg hne, hfe,
      List.getLast?_nil]
  · intro w hw
    have hmem : w ∈ avail.filter (eligiblePred strat (tripleOf cur)) :=
      List.mem_of_mem_getLast? hw
    refine ⟨?_, hmem, ?_⟩
    · simp only [getVersionByStrategy, hcur, hreg, if_neg hne, hw]
    · intro x hx
      have hpf : (avail.filter (eligiblePred strat (tripleOf cur))).Pairwise
          (fun x y => lexLEo (intTriple x) (intTriple y) = true) :=
        List.Pairwise.sublist (List.filter_sublist avail) hsort
      rcases pairwise_getLast? _ hpf w hw x hx with rfl | hr
      · have hsw : (intTriple x).isSome = true :=
          hall x (List.mem_of_mem_filter hmem)
        rcases Option.isSome_iff_exists.mp hsw with ⟨tw, htw⟩
        rw [htw]
        simp [lexLEo, lexLE_refl]
      · exact hr

/-- Witness for the C3 amended theorem: the spec's scenario — current
`1.2.3`, minor strategy, sorted registry list
`["1.2.4", "1.3.0", "1.3.5", "2.0.0"]` — resolves to `1.3.5`. -/
theorem getVersionByStrategy_last_eligible_witness :
    getVersionByStrategy envSorted (str "mytool") .minor = str "1.3.5" := by
  have h := (getVersionByStrategy_last_eligible envSorted (str "mytool")
      (str "1.2.3") [str "1.2.4", str "1.3.0", str "1.3.5", str "2.0.0"]
      .minor rfl (by decide) rfl (by decide) (by decide)).2
      (str "1.3.5") (by decide)
  exact h.1

/-- C4: with a current version installed and the registry list available,
the version the minor strategy returns always has the same major
component as the current version, and the version the patch strategy
returns additionally has the same minor component (components read
through the code's own split-and-convert pipeline). -/
theorem getVersionByStrategy_preserves_components (env : Env) (n cur : Str)
    (avail : List Str) (strat : NarrowStrategy)
    (hcur : env.installedGlobal n = some cur) (hne : cur ≠ [])
    (hreg : env.viewVersions n = some avail) :
    (tripleOf (getVersionByStrategy env n strat)).1 = (tripleOf cur).1 ∧
    (strat = .patch →
      (tripleOf (getVersionByStrategy env n strat)).2.1 = (tripleOf cur).2.1) := by
  cases hlast : (avail.filter (eligiblePred strat (tripleOf cur))).getLast? with
  | none =>
    have hres : getVersionByStrategy env n strat = cur := by
      simp only [getVersionByStrategy, hcur, hreg, if_neg hne, hlast]
    rw [hres]
    exact ⟨rfl, fun _ => rfl⟩
  | some w =>
    have hres : getVersionByStrategy env n strat = w := by
      simp only [getVersionByStrategy, hcur, hreg, if_neg hne, hlast]
    have hmem := List.mem_of_mem_getLast? hlast
    have hpred : eligiblePred strat (tripleOf cur) w = true :=
      (List.mem_filter.mp hmem).2
    rw [hres]
    rcases ht : tripleOf w with ⟨a, b, c⟩
    rcases hc : tripleOf cur with ⟨x, y, z⟩
    unfold eligiblePred at hpred
    rw [ht, hc] at hpred
    cases strat with
    | minor =>
      simp only [Bool.and_eq_true] at hpred
      exact ⟨jsEq_eq hpred.1, fun h => absurd h (by decide)⟩
    | patch =>
      simp only [Bool.and_eq_true] at hpred
      exact ⟨jsEq_eq hpred.1.1, fun _ => jsEq_eq hpred.1.2⟩

/-- Witness for C4 at the sorted scenario environment. -/
theorem getVersionByStrategy_preserves_components_witness :
    (tripleOf (getVersionByStrategy envSorted (str "mytool") .minor)).1 =
      (tripleOf (str "1.2.3")).1 :=
  (getVersionByStrategy_preserves_components envSorted (str "mytool")
      (str "1.2.3") [str "1.2.4", str "1.3.0", str "1.3.5", str "2.0.0"]
      .minor rfl (by decide) rfl).1

/-- C1 counterexample: for the `demo` package the resolved target is the
concrete version `1.0.0`, equal to the installed current version, yet
`updatePackage` still executes the install command and reports a plain
success — the code has no `AlreadyCurrent` outcome and never
short-circuits, so a second identical run installs again and reports
success again. -/
theorem updatePackage_runs_install_when_current :
    getCurrentVersion envUpToDate (str "demo") true = some (str "1.0.0") ∧
    getTargetVersion envUpToDate pkgPinnedCurrent = .ok (str "1.0.0") ∧
    (updatePackage .npm envUpToDate pkgPinnedCurrent).2 =
      [str "npm install -g demo@1.0.0"] ∧
    (updatePackage .npm envUpToDate pkgPinnedCurrent).1.success = true :=
  ⟨rfl, rfl, rfl, rfl⟩

/-- C1 amended: `updatePackage` has no compare-before short-circuit: even
when the resolved concrete target equals the installed current version
it executes the install command and reports success (with
`updateType = none`); re-running under unchanged external state repeats
exactly this. -/
theorem updatePackage_no_short_circuit (pm : PackageManager) (env : Env)
    (pkg : PackageConfig) (v : Str)
    (hcur : getCurrentVersion env pkg.name (pkg.global != some false) = some v)
    (htgt : getTargetVersion env pkg = .ok v)
    (hlat : v ≠ str "latest")
    (hrun : env.run (getInstallCommand pm pkg.name v (pkg.global != some false)) =
      .exited 0 [])
    (hpost : pkg.postinstall = Option.none) :
    updatePackage pm env pkg =
      ({ success := true, package := pkg.name, version := some v,
         currentVersion := some v, updateType := some .none },
       [getInstallCommand pm pkg.name v (pkg.global != some false)]) := by
  simp only [updatePackage, hcur, htgt, if_neg hlat, hrun, hpost,
    spawnResult, runHooks, determineUpdateType_self, if_pos rfl, ite_true]

/-- Witness for the C1 amended theorem at the concrete up-to-date
environment. -/
theorem updatePackage_no_short_circuit_witness :
    updatePackage .npm envUpToDate pkgPinnedCurrent =
      ({ success := true, package := str "demo", version := some (str "1.0.0"),
         currentVersion := some (str "1.0.0"), updateType := some .none },
       [str "npm install -g demo@1.0.0"]) := by
  have h := updatePackage_no_short_circuit .npm envUpToDate pkgPinnedCurrent
    (str "1.0.0") rfl rfl (by decide) rfl rfl
  rw [h]
  decide

/-- C6 counterexample: the install command for `demo` exits with code 1
and an empty captured stderr stream; the first line of that stream is
empty, but the reported error message is the synthetic
`Command failed with exit code 1` — so the message is not always the
first line of the captured stream. -/
theorem install_failure_error_not_stream_first_line :
    envInstallFails.run (str "npm install -g demo@1.0.0") = .exited 1 [] ∧
    firstLine [] = [] ∧
    (updatePackage .npm envInstallFails pkgWithHook).1.error =
      some (str "Command failed with exit code 1") ∧
    str "Command failed with exit code 1" ≠ ([] : Str) := by
  decide

/-- C6 amended: when the install command exits non-zero, the outcome is a
failure whose message is the first line of the whitespace-trimmed
captured stderr when that is non-empty and the synthetic
`Command failed with exit code N` message otherwise, and no post-install
hook is spawned (the trace is exactly the install command). -/
theorem updatePackage_install_failure (pm : PackageManager) (env : Env)
    (pkg : PackageConfig) (t : Str) (code : Int) (serr : Str)
    (htgt : getTargetVersion env pkg = .ok t)
    (hrun : env.run (getInstallCommand pm pkg.name t (pkg.global != some false)) =
      .exited code serr)
    (hcode : code ≠ 0)
    (htrim : trimChars serr = serr) :
    updatePackage pm env pkg =
      ({ success := false, package := pkg.name,
         error := some (if serr = []
           then firstLine (str "Command failed with exit code " ++ str (toString code))
           else firstLine serr) },
       [getInstallCommand pm pkg.name t (pkg.global != some false)]) := by
  simp only [updatePackage, htgt, hrun, spawnResult, if_neg hcode,
    failResult, errorMessageOf]
  rw [htrim]
  by_cases hserr : serr = []
  · subst hserr
    simp
  · simp [hserr, htrim]

/-- Witness for the C6 amended theorem: failing install with empty
stderr yields the synthetic message, and only the install command is
spawned. -/
theorem updatePackage_install_failure_witness :
    updatePackage .npm envInstallFails pkgWithHook =
      ({ success := false, package := str "demo",
         error := some (str "Command failed with exit code 1") },
       [str "npm install -g demo@1.0.0"]) := by
  have h := updatePackage_install_failure .npm envInstallFails pkgWithHook
    (str "1.0.0") 1 [] rfl rfl (by decide) rfl
  rw [h]
  decide

theorem dropWhile_cons_false {p : Char → Bool} (c : Char) (l : Str)
    (h : p c = false) : List.dropWhile p (c :: l) = c :: l := by
  simp [List.dropWhile_cons, h]

/-- `trim` is the identity on a command string that starts with a
non-whitespace character and ends with `@` followed by a
whitespace-free version. -/
theorem trim_cmd (n v : Str) (a : Char) (rest : Str)
    (ha : isWs a = false) (hv : ∀ c ∈ v, isWs c = false) :
    trimChars ((a :: rest) ++ n ++ '@' :: v) = (a :: rest) ++ n ++ '@' :: v := by
  unfold trimChars
  have h1 : List.dropWhile isWs ((a :: rest) ++ n ++ '@' :: v) =
      (a :: rest) ++ n ++ '@' :: v :=
    dropWhile_cons_false a (rest ++ n ++ '@' :: v) ha
  rw [h1]
  have h2 : ((a :: rest) ++ n ++ '@' :: v).reverse =
      v.reverse ++ '@' :: ((a :: rest) ++ n).reverse := by
    rw [List.reverse_append, List.reverse_cons, List.append_assoc,
      List.singleton_append]
  rw [h2]
  have h3 : List.dropWhile isWs (v.reverse ++ '@' :: ((a :: rest) ++ n).reverse) =
      v.reverse ++ '@' :: ((a :: rest) ++ n).reverse := by
    cases hv' : v.reverse with
    | nil =>
      exact dropWhile_cons_false _ _ (by decide)
    | cons d ds =>
      have hd : isWs d = false := by
        refine hv d (List.mem_reverse.mp ?_)
        rw [hv']
        exact List.mem_cons_self d ds
      exact dropWhile_cons_false d (ds ++ '@' :: ((a :: rest) ++ n).reverse) hd
  rw [h3, ← h2, List.reverse_reverse]

/-- C7 counterexample: for yarn the command is identical whether the
`global` flag is true or false — the `yarn global add` form is always
used, so the global marker is not omitted when `global` is false. -/
theorem getInstallCommand_yarn_ignores_global :
    getInstallCommand .yarn (str "typescript") (str "5.5.0") false =
      getInstallCommand .yarn (str "typescript") (str "5.5.0") true ∧
    getInstallCommand .yarn (str "typescript") (str "5.5.0") false =
      str "yarn global add typescript@5.5.0" := by
  decide

/-- C7 amended: for npm and pnpm the `-g` flag is present exactly when
`global` is true (with a leftover double space when it is false, since
only the ends are trimmed), yarn always produces the `yarn global add`
form regardless of the flag, and in every case the version — including
the `latest` sentinel — is appended to the package name with `@`. -/
theorem getInstallCommand_shapes (n v : Str) (hv : ∀ c ∈ v, isWs c = false) :
    (∀ g : Bool, getInstallCommand .yarn n v g =
      str "yarn global add " ++ n ++ '@' :: v) ∧
    getInstallCommand .npm n v true = str "npm install -g " ++ n ++ '@' :: v ∧
    getInstallCommand .npm n v false = str "npm install  " ++ n ++ '@' :: v ∧
    getInstallCommand .pnpm n v true = str "pnpm add -g " ++ n ++ '@' :: v ∧
    getInstallCommand .pnpm n v false = str "pnpm add  " ++ n ++ '@' :: v := by
  refine ⟨fun g => ?_, ?_, ?_, ?_, ?_⟩
  · show trimChars (str "yarn global add " ++ n ++ '@' :: v) = _
    exact trim_cmd n v 'y' (str "arn global add ") rfl hv
  · show trimChars (str "npm install -g " ++ n ++ '@' :: v) = _
    exact trim_cmd n v 'n' (str "pm install -g ") rfl hv
  · show trimChars (str "npm install  " ++ n ++ '@' :: v) = _
    exact trim_cmd n v 'n' (str "pm install  ") rfl hv
  · show trimChars (str "pnpm add -g " ++ n ++ '@' :: v) = _
    exact trim_cmd n v 'p' (str "npm add -g ") rfl hv
  · show trimChars (str "pnpm add  " ++ n ++ '@' :: v) = _
    exact trim_cmd n v 'p' (str "npm add  ") rfl hv

/-- Witness for the C7 amended theorem at concrete name and version. -/
theorem getInstallCommand_shapes_witness :
    getInstallCommand .npm (str "foo") (str "1.0.0") true =
      str "npm install -g foo@1.0.0" := by
  have h := (getInstallCommand_shapes (str "foo") (str "1.0.0") (by decide)).2.1
  rw [h]
  decide

/-- C10: whenever `loadConfig` reads a configuration whose (defaulted)
package list has no entry named `upvibe`, it prepends the
`{name: upvibe, global: true, strategy: latest}` entry, returns the
modified configuration and issues its write-back; and every non-null
configuration it returns contains a package named `upvibe`. -/
theorem loadConfig_ensures_upvibe (ro : ReadOutcome) :
    (∀ cfg, readConfigFile ro = .ok (some cfg) →
      cfg.packages.any (fun pkg => pkg.name = str "upvibe") = false →
      loadConfig ro =
        (some { cfg with packages := upvibeEntry :: cfg.packages },
         some { cfg with packages := upvibeEntry :: cfg.packages })) ∧
    (∀ cfg, (loadConfig ro).1 = some cfg →
      cfg.packages.any (fun pkg => pkg.name = str "upvibe") = true) := by
  constructor
  · intro cfg hread hno
    simp [loadConfig, hread, hno]
  · intro cfg hres
    rcases hr : readConfigFile ro with u | o
    · simp [loadConfig, hr] at hres
    · cases o with
      | none => simp [loadConfig, hr] at hres
      | some c =>
        by_cases hany : c.packages.any (fun pkg => pkg.name = str "upvibe") = true
        · have hc : c = cfg := by
            simpa [loadConfig, hr, hany] using hres
          subst hc
          exact hany
        · have hc : { c with packages := upvibeEntry :: c.packages } = cfg := by
            simpa [loadConfig, hr, hany] using hres
          subst hc
          simp [List.any_cons, upvibeEntry]

/-- Witness for C10: a config holding only `typescript` comes back (and
is written back) with the `upvibe` entry prepended. -/
theorem loadConfig_ensures_upvibe_witness :
    loadConfig (.found { packages := [{ name := str "typescript" }] }) =
      (some { packages := [upvibeEntry, applyDefaults { name := str "typescript" }] },
       some { packages := [upvibeEntry, applyDefaults { name := str "typescript" }] }) :=
  (loadConfig_ensures_upvibe (.found { packages := [{ name := str "typescript" }] })).1
    { packages := [applyDefaults { name := str "typescript" }] } rfl (by decide)

example : determineUpdateType (some (str "1.2.3")) (str "1.3.0") = .minor := by decide
example : determineUpdateType (some (str "1.2.3")) (str "2.0.0") = .major := by decide
example : determineUpdateType (some (str "1.2.3")) (str "1.2.4") = .patch := by decide
example : determineUpdateType (some (str "2.0.0")) (str "1.9.0") = .none := by decide
example : determineUpdateType (some (str "1.2.3")) (str "1.2.3-beta.1") = .none := by decide
example : determineUpdateType (some (str "1.2")) (str "1.2.5") = .patch := by decide
example : determineUpdateType Option.none (str "1.0.0") = .none := by decide
